import Mathlib

/-!
Verification of the TechCareer-Analyzer analytics core against its
specification.  The Python services are shallowly embedded: numbers are
rationals, dictionaries with definition order are association lists, and
Python `round` (banker's rounding) is modelled exactly on rationals.
-/

namespace TechCareer

/-! ### String helpers (Python `str.lower` and substring `in`) -/

/-- Lower-case a string into its character list.  Models Python `str.lower()`
on the ASCII vocabularies used by this repository. -/
def lowerCL (s : String) : List Char := s.data.map Char.toLower

/-- Substring containment on character lists: models Python `needle in hay`. -/
def containsSub (needle : List Char) : List Char → Bool
  | [] => needle.isEmpty
  | c :: t => needle.isPrefixOf (c :: t) || containsSub needle t

/-- Case-insensitive substring match: models SQL `title ILIKE '%pat%'` and
Python `pat.lower() in s.lower()`. -/
def ilike (pat s : String) : Bool := containsSub (lowerCL pat) (lowerCL s)

/-! ### Python rounding on rationals -/

/-- Python's two-argument `min` on rationals, kept as an executable `if`. -/
def pymin (a b : ℚ) : ℚ := if a ≤ b then a else b

theorem pymin_eq_min (a b : ℚ) : pymin a b = min a b := by
  unfold pymin
  split_ifs with h
  · exact (min_eq_left h).symm
  · exact (min_eq_right (le_of_not_le h)).symm

/-- Round to the nearest integer, ties to even: the semantics of Python's
built-in `round` (banker's rounding), on exact rationals.  Uses the
executable `Rat.floor`. -/
def rne (x : ℚ) : ℤ :=
  if x - x.floor < 1/2 then x.floor
  else if 1/2 < x - x.floor then x.floor + 1
  else if x.floor % 2 = 0 then x.floor else x.floor + 1

theorem ratFloor_eq (x : ℚ) : x.floor = ⌊x⌋ := by
  rw [Rat.floor_def', Rat.floor_def]

/-- Python `round(x, 2)`. -/
def round2 (x : ℚ) : ℚ := (rne (x * 100) : ℚ) / 100

/-- Python `round(x, 1)`. -/
def round1 (x : ℚ) : ℚ := (rne (x * 10) : ℚ) / 10

theorem rne_sub_le (x : ℚ) : |(rne x : ℚ) - x| ≤ 1/2 := by
  have hfl : (⌊x⌋ : ℚ) ≤ x := Int.floor_le x
  have hfu : x < ⌊x⌋ + 1 := Int.lt_floor_add_one x
  unfold rne
  simp only [ratFloor_eq]
  split_ifs with h1 h2 h3 <;> (rw [abs_le]; push_cast; constructor <;> linarith)

theorem rne_eq_cases (x : ℚ) : rne x = ⌊x⌋ ∨ rne x = ⌊x⌋ + 1 := by
  unfold rne
  simp only [ratFloor_eq]
  split_ifs <;> simp

theorem rne_tie_up_even (x : ℚ) (h : (rne x : ℚ) = x + 1/2) : rne x % 2 = 0 := by
  have hfl : (⌊x⌋ : ℚ) ≤ x := Int.floor_le x
  have hfu : x < ⌊x⌋ + 1 := Int.lt_floor_add_one x
  unfold rne at *
  simp only [ratFloor_eq] at h ⊢
  split_ifs at h ⊢ with h1 h2 h3
  · exfalso; linarith
  · exfalso
    push_cast at h
    linarith
  · exact h3
  · omega

theorem rne_tie_down_even (x : ℚ) (h : (rne x : ℚ) = x - 1/2) : rne x % 2 = 0 := by
  have hfl : (⌊x⌋ : ℚ) ≤ x := Int.floor_le x
  have hfu : x < ⌊x⌋ + 1 := Int.lt_floor_add_one x
  unfold rne at *
  simp only [ratFloor_eq] at h ⊢
  split_ifs at h ⊢ with h1 h2 h3
  · exfalso; linarith
  · exfalso
    push_cast at h
    linarith
  · exact h3
  · exfalso
    push_cast at h
    linarith

theorem rne_mono {x y : ℚ} (h : x ≤ y) : rne x ≤ rne y := by
  by_contra hlt
  push_neg at hlt
  have h1 : rne y + 1 ≤ rne x := hlt
  have hx := rne_sub_le x
  have hy := rne_sub_le y
  rw [abs_le] at hx hy
  have h1q : (rne y : ℚ) + 1 ≤ (rne x : ℚ) := by exact_mod_cast h1
  have hxeq : (rne x : ℚ) = x + 1/2 := by linarith
  have hyeq : (rne y : ℚ) = y - 1/2 := by linarith
  have hex := rne_tie_up_even x hxeq
  have hey := rne_tie_down_even y hyeq
  have : rne x = rne y + 1 := by
    have : (rne x : ℚ) = (rne y : ℚ) + 1 := by linarith
    exact_mod_cast this
  omega

theorem round2_mono {x y : ℚ} (h : x ≤ y) : round2 x ≤ round2 y := by
  unfold round2
  have := rne_mono (mul_le_mul_of_nonneg_right h (by norm_num : (0:ℚ) ≤ 100))
  have hc : (rne (x * 100) : ℚ) ≤ (rne (y * 100) : ℚ) := by exact_mod_cast this
  linarith

theorem round1_sub_le (x : ℚ) : |round1 x - x| ≤ 1/20 := by
  unfold round1
  have := rne_sub_le (x * 10)
  rw [abs_le] at *
  obtain ⟨hl, hr⟩ := this
  constructor <;> linarith

/-! ### Salary predictor (`ml/inference/salary_predictor.py`) -/

/-- Table `SalaryPredictor.baseline_salaries`, in definition order. -/
def baseline_salaries : List (String × ℚ) :=
  [("software engineer", 110000),
   ("senior software engineer", 150000),
   ("data scientist", 130000),
   ("machine learning engineer", 140000),
   ("frontend developer", 105000),
   ("backend developer", 115000),
   ("full stack developer", 120000)]

/-- Bonus table `high_value_skills` inside `SalaryPredictor.predict`. -/
def high_value_skills : List (String × ℚ) :=
  [("Machine Learning", 15000),
   ("AWS", 10000),
   ("Kubernetes", 12000),
   ("React", 8000),
   ("Python", 5000)]

/-- Table `location_multipliers` inside `SalaryPredictor.predict`. -/
def predictor_location_multipliers : List (String × ℚ) :=
  [("san francisco", 1.35),
   ("new york", 1.30),
   ("seattle", 1.25),
   ("remote", 1.00)]

/-- Function `SalaryPredictor.predict`: baseline lookup by substring on the lowered
role, experience multiplier clamped at 2.0, additive skill bonus, first
matching location multiplier, rounded to 2 decimals. -/
def predictor_predict (skills : List String) (experience_years : ℚ)
    (role : String) (location : Option String) : ℚ :=
  let role_lower := lowerCL role
  let base_salary : ℚ :=
    match baseline_salaries.find? (fun p => containsSub p.1.data role_lower) with
    | some p => p.2
    | none => 100000
  let experience_multiplier := pymin (1 + experience_years * 0.05) 2.0
  let adjusted1 := base_salary * experience_multiplier
  let skill_bonus :=
    (skills.map (fun s =>
      match high_value_skills.find? (fun p => p.1 == s) with
      | some p => p.2
      | none => 0)).sum
  let adjusted2 := adjusted1 + skill_bonus
  let adjusted3 :=
    match location with
    | none => adjusted2
    | some loc =>
      match predictor_location_multipliers.find?
          (fun p => containsSub p.1.data (lowerCL loc)) with
      | some p => adjusted2 * p.2
      | none => adjusted2
  round2 adjusted3

/-! ### Evaluation helpers for `rne` at concrete points -/

theorem rne_eq_near (x : ℚ) (n : ℤ) (h0 : (n:ℚ) ≤ x) (h1 : x < n + 1/2) : rne x = n := by
  have hf : ⌊x⌋ = n := by
    rw [Int.floor_eq_iff]
    exact ⟨h0, by linarith⟩
  unfold rne
  rw [ratFloor_eq, hf]
  have h2 : x - (n:ℚ) < 1/2 := by linarith
  simp only [h2, if_true]

theorem rne_eq_up (x : ℚ) (n : ℤ) (h0 : (n:ℚ) + 1/2 < x) (h1 : x < n + 1) : rne x = n + 1 := by
  have hf : ⌊x⌋ = n := by
    rw [Int.floor_eq_iff]
    exact ⟨by linarith, by linarith⟩
  unfold rne
  rw [ratFloor_eq, hf]
  have h2 : ¬ (x - (n:ℚ) < 1/2) := by push_neg; linarith
  have h3 : (1:ℚ)/2 < x - (n:ℚ) := by linarith
  simp only [h2, if_false, h3, if_true]

/-- The Seattle scenario of §8 evaluated on the code's tables:
base 110000 ("software engineer" is in the baseline table), times 1.15,
plus 15000 bonus, times 1.25. -/
theorem predict_seattle_scenario :
    predictor_predict ["Python", "AWS"] 3 "Software Engineer" (some "Seattle") = 176875 := by
  have hbase : baseline_salaries.find?
        (fun p => containsSub p.1.data (lowerCL "Software Engineer"))
      = some ("software engineer", 110000) := by rfl
  have hloc : predictor_location_multipliers.find?
        (fun p => containsSub p.1.data (lowerCL "Seattle")) = some ("seattle", 1.25) := by rfl
  have hb1 : high_value_skills.find? (fun p => p.1 == "Python") = some ("Python", 5000) := by rfl
  have hb2 : high_value_skills.find? (fun p => p.1 == "AWS") = some ("AWS", 10000) := by rfl
  simp only [predictor_predict, hbase, hloc, hb1, hb2, List.map_cons, List.map_nil,
    List.sum_cons, List.sum_nil]
  rw [show (pymin (1 + (3:ℚ) * 0.05) 2.0) = 1.15 by unfold pymin; norm_num]
  unfold round2
  rw [show ((110000 * (1.15:ℚ) + (5000 + (10000 + 0))) * 1.25 * 100 : ℚ)
      = ((17687500:ℤ):ℚ) by norm_num]
  rw [rne_eq_near _ 17687500 (by norm_num) (by norm_num)]
  norm_num

/-- C2 counterexample: on the code, the §8 Seattle scenario does not produce
164375.0, because the baseline table maps "software engineer" to 110000, so
the 100000 default assumed by the spec scenario never applies. -/
theorem C2_counterexample :
    predictor_predict ["Python", "AWS"] 3 "Software Engineer" (some "Seattle") ≠ 164375 := by
  rw [predict_seattle_scenario]
  decide

/-- C2 (amended): for skills=["Python","AWS"], experience=3,
role="Software Engineer", location="Seattle", `predict` returns exactly
176875.0 = round((110000·1.15 + 5000 + 10000)·1.25, 2). -/
theorem C2_amended :
    predictor_predict ["Python", "AWS"] 3 "Software Engineer" (some "Seattle") = 176875 :=
  predict_seattle_scenario

/-! ### Structure of `predict` as base · experience-multiplier + bonus, times
location factor -/

/-- Baseline salary selected by `predict` for a role. -/
def baseOf (role : String) : ℚ :=
  match baseline_salaries.find? (fun p => containsSub p.1.data (lowerCL role)) with
  | some p => p.2
  | none => 100000

/-- Total additive skill bonus computed by `predict`. -/
def bonusOf (skills : List String) : ℚ :=
  (skills.map (fun s =>
    match high_value_skills.find? (fun p => p.1 == s) with
    | some p => p.2
    | none => 0)).sum

/-- The multiplicative location factor applied by `predict` (1 when no
location is given or none of the table keys occurs in it). -/
def locFacOf (location : Option String) : ℚ :=
  match location with
  | none => 1
  | some loc =>
    match predictor_location_multipliers.find?
        (fun p => containsSub p.1.data (lowerCL loc)) with
    | some p => p.2
    | none => 1

theorem predict_eq (skills : List String) (e : ℚ) (role : String) (location : Option String) :
    predictor_predict skills e role location
      = round2 ((baseOf role * pymin (1 + e * 0.05) 2.0 + bonusOf skills)
          * locFacOf location) := by
  simp only [predictor_predict, baseOf, bonusOf, locFacOf]
  cases location with
  | none => simp only [mul_one]
  | some loc =>
    cases hl : predictor_location_multipliers.find?
        (fun p => containsSub p.1.data (lowerCL loc)) with
    | none => simp only [hl, mul_one]
    | some p => simp only [hl]

theorem baseOf_pos (role : String) : 0 < baseOf role := by
  unfold baseOf
  cases h : baseline_salaries.find? (fun p => containsSub p.1.data (lowerCL role)) with
  | none => norm_num
  | some p =>
    have hm := List.mem_of_find?_eq_some h
    have hall : ∀ q ∈ baseline_salaries, (0:ℚ) < q.2 := by decide
    exact hall p hm

theorem locFacOf_pos (location : Option String) : 0 < locFacOf location := by
  unfold locFacOf
  cases location with
  | none => norm_num
  | some loc =>
    cases h : predictor_location_multipliers.find?
        (fun p => containsSub p.1.data (lowerCL loc)) with
    | none => simp only [h]; norm_num
    | some p =>
      simp only [h]
      have hm := List.mem_of_find?_eq_some h
      have hall : ∀ q ∈ predictor_location_multipliers, (0:ℚ) < q.2 := by
        intro q hq
        fin_cases hq <;> norm_num
      exact hall p hm

theorem pymin_mono_left {a b c : ℚ} (h : a ≤ b) : pymin a c ≤ pymin b c := by
  unfold pymin
  split_ifs <;> linarith

theorem expMult_sat {e : ℚ} (h : 20 ≤ e) : pymin (1 + e * 0.05) 2.0 = 2.0 := by
  unfold pymin
  have h5 : (2:ℚ) ≤ 1 + e * 0.05 := by
    have := mul_le_mul_of_nonneg_right h (by norm_num : (0:ℚ) ≤ 0.05)
    norm_num at this ⊢
    linarith
  split_ifs with hif
  · linarith
  · rfl

/-- C7: holding skills, role and location fixed, `predict` is monotonically
non-decreasing in experience_years on [0, 20], and constant from 20 years on
(the experience multiplier clamps at 2.0). -/
theorem C7_predict_monotone_saturates
    (skills : List String) (role : String) (location : Option String) :
    (∀ e1 e2 : ℚ, 0 ≤ e1 → e1 ≤ e2 → e2 ≤ 20 →
      predictor_predict skills e1 role location
        ≤ predictor_predict skills e2 role location) ∧
    (∀ e : ℚ, 20 ≤ e →
      predictor_predict skills e role location
        = predictor_predict skills 20 role location) := by
  constructor
  · intro e1 e2 _ h12 _
    rw [predict_eq, predict_eq]
    apply round2_mono
    apply mul_le_mul_of_nonneg_right _ (locFacOf_pos location).le
    apply add_le_add_right
    apply mul_le_mul_of_nonneg_left _ (baseOf_pos role).le
    apply pymin_mono_left
    have := mul_le_mul_of_nonneg_right h12 (by norm_num : (0:ℚ) ≤ 0.05)
    linarith
  · intro e he
    rw [predict_eq, predict_eq, expMult_sat he, expMult_sat (le_refl 20)]

/-- Witness for C7 at skills=[], role="x", location none, e1=1, e2=2, e=25. -/
theorem C7_witness :
    ((0:ℚ) ≤ 1 ∧ (1:ℚ) ≤ 2 ∧ (2:ℚ) ≤ 20 ∧
      predictor_predict [] 1 "x" none ≤ predictor_predict [] 2 "x" none) ∧
    ((20:ℚ) ≤ 25 ∧
      predictor_predict [] 25 "x" none = predictor_predict [] 20 "x" none) :=
  ⟨⟨by decide, by decide, by decide,
    (C7_predict_monotone_saturates [] "x" none).1 1 2 (by decide) (by decide) (by decide)⟩,
   ⟨by decide,
    (C7_predict_monotone_saturates [] "x" none).2 25 (by decide)⟩⟩

/-! ### Job records (`backend/models/job.py`) -/

/-- A job record as the analytics core reads it.  `posted_date` is a
timestamp in (possibly fractional) days since 1970-01-01; `salary` is the
nullable salary column. -/
structure Job where
  title : String
  location : String
  required_skills : List String
  experience_required : ℚ
  salary : Option ℚ
  posted_date : ℚ

/-- Python truthiness of a nullable salary: `None` and `0.0` are falsy. -/
def truthySal : Option ℚ → Option ℚ
  | some s => if s = 0 then none else some s
  | none => none

/-! ### Salary service (`backend/services/salary_service.py`) -/

/-- Table `SalaryService.location_multipliers` (exact-key dictionary). -/
def service_location_multipliers : List (String × ℚ) :=
  [("San Francisco", 1.35),
   ("New York", 1.30),
   ("Seattle", 1.25),
   ("Austin", 1.10),
   ("Remote", 1.00),
   ("Denver", 1.05),
   ("Chicago", 1.08)]

/-- Lookup `self.location_multipliers.get(location, 1.0)`: exact key match. -/
def service_loc_mult (location : String) : ℚ :=
  match service_location_multipliers.find? (fun p => p.1 == location) with
  | some p => p.2
  | none => 1

/-- Function `_get_company_size_adjustment`: exact lookup on the lower-cased size. -/
def size_multipliers : List (String × ℚ) :=
  [("startup", 0.90),
   ("small", 0.95),
   ("medium", 1.00),
   ("large", 1.10),
   ("enterprise", 1.15)]

def get_company_size_adjustment (company_size : String) : ℚ :=
  match size_multipliers.find? (fun p => p.1.data == lowerCL company_size) with
  | some p => p.2
  | none => 1

/-- Function `_get_education_adjustment`: first key occurring as a substring of the
lower-cased education string. -/
def edu_multipliers : List (String × ℚ) :=
  [("bachelor", 1.00),
   ("master", 1.10),
   ("phd", 1.20),
   ("bootcamp", 0.95)]

def get_education_adjustment (education : String) : ℚ :=
  match edu_multipliers.find? (fun p => containsSub p.1.data (lowerCL education)) with
  | some p => p.2
  | none => 1

/-- Function `_calculate_confidence`: bucketed by the count of records whose title
matches the role and whose required experience is within ±2 years. -/
def calculate_confidence (db : List Job) (experience_years : ℚ) (role : String) : ℚ :=
  let similar_jobs :=
    (db.filter (fun j => ilike role j.title
      && decide (experience_years - 2 ≤ j.experience_required)
      && decide (j.experience_required ≤ experience_years + 2))).length
  if 100 < similar_jobs then 0.95
  else if 50 < similar_jobs then 0.85
  else if 20 < similar_jobs then 0.75
  else 0.65

/-- Function `_calculate_market_percentile`: share of historical salaries strictly
below the prediction, as a percentage rounded to 1 decimal; 50.0 when the
role has no salary-bearing records.  (The `location` argument is accepted
and ignored, as in the source.) -/
def calculate_market_percentile (db : List Job) (salary : ℚ) (role : String)
    (_location : String) : ℚ :=
  let salary_values := db.filterMap (fun j => if ilike role j.title then j.salary else none)
  if salary_values.isEmpty then 50.0
  else round1 ((((salary_values.filter (fun s => decide (s < salary))).length : ℚ)
      / (salary_values.length : ℚ)) * 100)

/-- The five factor-attribution percentages of `_analyze_salary_factors`. -/
structure SalaryFactors where
  experience : ℚ
  skills : ℚ
  location : ℚ
  company_size : ℚ
  education : ℚ

/-- Python truthiness of an optional string (`None` and `""` are falsy). -/
def truthyStr : Option String → Bool
  | some s => !s.isEmpty
  | none => false

/-- Function `_analyze_salary_factors`: raw weights, then normalisation to percent
with rounding to 1 decimal. -/
def analyze_salary_factors (skills : List String) (experience_years : ℚ)
    (location : String) (company_size education : Option String) : SalaryFactors :=
  let fe := pymin (experience_years / 15.0) 1.0 * 0.35
  let fs := pymin ((skills.length : ℚ) / 20.0) 1.0 * 0.30
  let fl := (service_loc_mult location - 0.9) * 0.20
  let fc : ℚ := if truthyStr company_size then 0.10 else 0.05
  let fd : ℚ := if truthyStr education then 0.05 else 0.00
  let total := fe + fs + fl + fc + fd
  ⟨round1 (fe / total * 100), round1 (fs / total * 100), round1 (fl / total * 100),
   round1 (fc / total * 100), round1 (fd / total * 100)⟩

/-- Result record of `SalaryService.predict_salary`. -/
structure SalaryPrediction where
  predicted_salary : ℚ
  range_min : ℚ
  range_max : ℚ
  range_median : ℚ
  confidence_score : ℚ
  market_percentile : ℚ
  factors : SalaryFactors

/-- Function `SalaryService.predict_salary`: base model prediction, then the
service's own location multiplier, then (when truthy) company-size and
education adjustments, then confidence/percentile/factors. -/
def predict_salary (db : List Job) (skills : List String) (experience_years : ℚ)
    (role location : String) (company_size education : Option String) : SalaryPrediction :=
  let base_salary := predictor_predict skills experience_years role (some location)
  let adjusted1 := base_salary * service_loc_mult location
  let adjusted2 :=
    match company_size with
    | some c => if c.isEmpty then adjusted1 else adjusted1 * get_company_size_adjustment c
    | none => adjusted1
  let adjusted3 :=
    match education with
    | some ed => if ed.isEmpty then adjusted2 else adjusted2 * get_education_adjustment ed
    | none => adjusted2
  let confidence := calculate_confidence db experience_years role
  let percentile := calculate_market_percentile db adjusted3 role location
  let factors := analyze_salary_factors skills experience_years location company_size education
  ⟨round2 adjusted3, round2 (adjusted3 * 0.85), round2 (adjusted3 * 1.15),
   round2 adjusted3, confidence, percentile, factors⟩

/-- The company-size factor effectively applied by `predict_salary`
(1 when the argument is absent or falsy). -/
def csFac : Option String → ℚ
  | some c => if c.isEmpty then 1 else get_company_size_adjustment c
  | none => 1

/-- The education factor effectively applied by `predict_salary`. -/
def eduFac : Option String → ℚ
  | some ed => if ed.isEmpty then 1 else get_education_adjustment ed
  | none => 1

/-- C3 (amended): the predicted salary equals the base model output times
the service's own location multiplier (exact-key lookup, default 1.0),
times the company-size factor, times the education factor, rounded to 2
decimals.  The claim's "no other multiplier after the base prediction" is
false: the location multiplier is applied a second time on top of the base
prediction. -/
theorem C3_amended (db : List Job) (skills : List String) (e : ℚ)
    (role location : String) (company_size education : Option String) :
    (predict_salary db skills e role location company_size education).predicted_salary
      = round2 (predictor_predict skills e role (some location)
          * service_loc_mult location * csFac company_size * eduFac education) := by
  simp only [predict_salary, csFac, eduFac]
  cases company_size with
  | none =>
    cases education with
    | none => rw [mul_one, mul_one]
    | some ed => by_cases hed : ed.isEmpty <;> simp [hed, mul_one]
  | some c =>
    by_cases hc : c.isEmpty <;>
      cases education with
      | none => simp [hc, mul_one]
      | some ed => by_cases hed : ed.isEmpty <;> simp [hc, hed, mul_one]

/-- C3 counterexample: with role "x" and location "Seattle" (and no
company size or education), `predict_salary` does not return the base
prediction times the default company-size and education multipliers:
the service multiplies by its own Seattle multiplier 1.25 again. -/
theorem C3_counterexample :
    (predict_salary [] [] 0 "x" "Seattle" none none).predicted_salary
      ≠ predictor_predict [] 0 "x" (some "Seattle") * 1 * 1 := by
  have hbase : baseline_salaries.find?
        (fun p => containsSub p.1.data (lowerCL "x")) = none := by rfl
  have hloc : predictor_location_multipliers.find?
        (fun p => containsSub p.1.data (lowerCL "Seattle")) = some ("seattle", 1.25) := by rfl
  have hsvc : service_location_multipliers.find?
        (fun p => p.1 == "Seattle") = some ("Seattle", 1.25) := by rfl
  have hpred : predictor_predict [] 0 "x" (some "Seattle") = 125000 := by
    simp only [predictor_predict, hbase, hloc, List.map_nil, List.sum_nil]
    rw [show (pymin (1 + (0:ℚ) * 0.05) 2.0) = 1 by unfold pymin; norm_num]
    unfold round2
    rw [show ((100000 * (1:ℚ) + 0) * 1.25 * 100 : ℚ) = ((12500000:ℤ):ℚ) by norm_num]
    rw [rne_eq_near _ 12500000 (by norm_num) (by norm_num)]
    norm_num
  simp only [predict_salary, service_loc_mult, hsvc, hpred]
  unfold round2
  rw [show ((125000 : ℚ) * 1.25 * 100 : ℚ) = ((15625000:ℤ):ℚ) by norm_num]
  rw [rne_eq_near _ 15625000 (by norm_num) (by norm_num)]
  norm_num

/-- Evaluation form of `rne` in terms of `Int.floor`, for `norm_num`. -/
theorem rne_eval (x : ℚ) : rne x =
    if x - ⌊x⌋ < 1/2 then ⌊x⌋ else if 1/2 < x - ⌊x⌋ then ⌊x⌋ + 1
    else if ⌊x⌋ % 2 = 0 then ⌊x⌋ else ⌊x⌋ + 1 := by
  unfold rne
  simp only [ratFloor_eq]

theorem pymin_nonneg {a b : ℚ} (ha : 0 ≤ a) (hb : 0 ≤ b) : 0 ≤ pymin a b := by
  unfold pymin
  split_ifs <;> assumption

theorem one_le_service_loc_mult (location : String) : 1 ≤ service_loc_mult location := by
  unfold service_loc_mult
  cases h : service_location_multipliers.find? (fun p => p.1 == location) with
  | none => norm_num
  | some p =>
    simp only [h]
    have hm := List.mem_of_find?_eq_some h
    have hall : ∀ q ∈ service_location_multipliers, (1:ℚ) ≤ q.2 := by
      intro q hq
      fin_cases hq <;> norm_num
    exact hall p hm

/-- C6 counterexample: at experience_years = 3/7, one skill, location
"San Francisco", no company size, education given, the five rounded
percentages are 4.7, 7.0, 41.9, 23.3, 23.3 and sum to 100.2, which is
more than 0.1 away from 100. -/
theorem C6_counterexample :
    ¬ (|(analyze_salary_factors ["Python"] (3/7) "San Francisco" none (some "Bachelor")).experience
        + (analyze_salary_factors ["Python"] (3/7) "San Francisco" none (some "Bachelor")).skills
        + (analyze_salary_factors ["Python"] (3/7) "San Francisco" none (some "Bachelor")).location
        + (analyze_salary_factors ["Python"] (3/7) "San Francisco" none (some "Bachelor")).company_size
        + (analyze_salary_factors ["Python"] (3/7) "San Francisco" none (some "Bachelor")).education
        - 100| ≤ 1/10) := by
  have hsvc : service_location_multipliers.find? (fun p => p.1 == "San Francisco")
      = some ("San Francisco", 1.35) := by rfl
  have hB : truthyStr (some "Bachelor") = true := by rfl
  have hN : truthyStr (none : Option String) = false := by rfl
  intro h
  simp only [analyze_salary_factors, service_loc_mult, hsvc, hB, hN,
    List.length_cons, List.length_nil] at h
  norm_num [pymin, round1, rne_eval, abs_le] at h

/-- C6 (amended): for experience_years ≥ 0 the five reported
factor-attribution percentages always sum to 100.0 within 0.25 (five
roundings to one decimal, each off by at most 0.05); the claimed 0.1
tolerance does not hold. -/
theorem C6_amended (skills : List String) (e : ℚ) (location : String)
    (company_size education : Option String) (he : 0 ≤ e) :
    |(analyze_salary_factors skills e location company_size education).experience
      + (analyze_salary_factors skills e location company_size education).skills
      + (analyze_salary_factors skills e location company_size education).location
      + (analyze_salary_factors skills e location company_size education).company_size
      + (analyze_salary_factors skills e location company_size education).education
      - 100| ≤ 1/4 := by
  simp only [analyze_salary_factors]
  set fe := pymin (e / 15.0) 1.0 * 0.35 with hfe_def
  set fs := pymin ((skills.length : ℚ) / 20.0) 1.0 * 0.30 with hfs_def
  set fl := (service_loc_mult location - 0.9) * 0.20 with hfl_def
  set fc : ℚ := if truthyStr company_size then 0.10 else 0.05 with hfc_def
  set fd : ℚ := if truthyStr education then 0.05 else 0.00 with hfd_def
  have hfe : 0 ≤ fe := by
    apply mul_nonneg _ (by norm_num)
    exact pymin_nonneg (div_nonneg he (by norm_num)) (by norm_num)
  have hfs : 0 ≤ fs := by
    apply mul_nonneg _ (by norm_num)
    exact pymin_nonneg (div_nonneg (Nat.cast_nonneg _) (by norm_num)) (by norm_num)
  have hfl : (1:ℚ)/50 ≤ fl := by
    have := one_le_service_loc_mult location
    rw [hfl_def]
    nlinarith
  have hfc : (1:ℚ)/20 ≤ fc := by
    rw [hfc_def]
    split_ifs <;> norm_num
  have hfd : 0 ≤ fd := by
    rw [hfd_def]
    split_ifs <;> norm_num
  set T := fe + fs + fl + fc + fd with hT_def
  have hT : 0 < T := by rw [hT_def]; linarith
  have hsum : fe / T * 100 + fs / T * 100 + fl / T * 100 + fc / T * 100 + fd / T * 100
      = 100 := by
    field_simp
    ring
  have h1 := round1_sub_le (fe / T * 100)
  have h2 := round1_sub_le (fs / T * 100)
  have h3 := round1_sub_le (fl / T * 100)
  have h4 := round1_sub_le (fc / T * 100)
  have h5 := round1_sub_le (fd / T * 100)
  rw [abs_le] at h1 h2 h3 h4 h5 ⊢
  constructor <;> linarith

/-- Witness for C6 (amended) at experience 0, no skills, unknown location. -/
theorem C6_amended_witness :
    (0:ℚ) ≤ 0 ∧
    |(analyze_salary_factors [] 0 "x" none none).experience
      + (analyze_salary_factors [] 0 "x" none none).skills
      + (analyze_salary_factors [] 0 "x" none none).location
      + (analyze_salary_factors [] 0 "x" none none).company_size
      + (analyze_salary_factors [] 0 "x" none none).education
      - 100| ≤ 1/4 :=
  ⟨by decide, C6_amended [] 0 "x" none none (by decide)⟩

/-! ### Career service (`backend/services/career_service.py`) -/

/-- Python `abs` on rationals as an executable `if`. -/
def pyabs (a : ℚ) : ℚ := if a < 0 then -a else a

/-- Python two-argument `max`. -/
def pymax (a b : ℚ) : ℚ := if a ≤ b then b else a

theorem pyabs_eq_abs (a : ℚ) : pyabs a = |a| := by
  unfold pyabs
  split_ifs with h
  · exact (abs_of_neg h).symm
  · exact (abs_of_nonneg (le_of_not_lt h)).symm

theorem pymax_eq_max (a b : ℚ) : pymax a b = max a b := by
  unfold pymax
  split_ifs with h
  · exact (max_eq_right h).symm
  · exact (max_eq_left (le_of_not_le h)).symm

/-- One row of the `role_scores` accumulator of `_find_matching_roles`. -/
structure RoleData where
  role : String
  match_score : ℚ
  avg_salary : ℚ
  required_skills : List String
  count : ℕ

/-- The per-record total score of `_find_matching_roles`:
0.7·(distinct required skills matched / distinct required skills)
+ 0.3·max(0, 1 − |required experience − profile experience|/10). -/
def record_score (skills : List String) (experience_years : ℚ) (j : Job) : ℚ :=
  let job_skills := j.required_skills.dedup
  let matching := job_skills.filter (fun s => skills.contains s)
  let match_score : ℚ := (matching.length : ℚ) / (job_skills.length : ℚ)
  let exp_match := pymax 0 (1 - pyabs (j.experience_required - experience_years) / 10)
  match_score * 0.7 + exp_match * 0.3

/-- Update `if job.salary: avg_salary += job.salary; count += 1` applied to the
(unique) accumulator row of a title.  Adding a falsy 0.0 salary is a no-op,
so the truthiness test collapses to `getD 0`. -/
def bump_role (st : List RoleData) (title : String) (sal : Option ℚ) : List RoleData :=
  st.map (fun rd => if rd.role == title then
    { rd with avg_salary := rd.avg_salary + sal.getD 0, count := rd.count + 1 } else rd)

/-- Processing of one job record by the `for job in jobs` loop of
`_find_matching_roles`: skip empty skill sets, create the row on first
sight of a title (keeping that record's score and skill set), then
accumulate salary and count. -/
def roles_step (skills : List String) (experience_years : ℚ)
    (st : List RoleData) (j : Job) : List RoleData :=
  if j.required_skills.isEmpty then st
  else
    let total_score := record_score skills experience_years j
    let st1 := if (st.find? (fun rd => rd.role == j.title)).isSome then st
      else st ++ [⟨j.title, total_score, 0, j.required_skills.dedup, 0⟩]
    bump_role st1 j.title j.salary

/-- The `role_scores` dictionary after the loop, in insertion order. -/
def build_role_scores (db : List Job) (skills : List String) (experience_years : ℚ) :
    List RoleData :=
  db.foldl (roles_step skills experience_years) []

/-- The "Calculate averages" pass: divide the salary sum by the record
count when both are positive. -/
def finalize_role (rd : RoleData) : RoleData :=
  if 0 < rd.count ∧ 0 < rd.avg_salary then
    { rd with avg_salary := rd.avg_salary / (rd.count : ℚ) } else rd

/-- Descending-score order used by `recommended_roles.sort(reverse=True)`. -/
def scoreGe (a b : RoleData) : Prop := b.match_score ≤ a.match_score

instance : DecidableRel scoreGe :=
  fun a b => inferInstanceAs (Decidable (b.match_score ≤ a.match_score))

instance : IsTotal RoleData scoreGe := ⟨fun a b => le_total b.match_score a.match_score⟩

instance : IsTrans RoleData scoreGe := ⟨fun _ _ _ hab hbc => le_trans hbc hab⟩

/-- Function `_find_matching_roles`: build the per-title rows, take averages, sort
by score descending (Python's stable sort) and keep the first 10. -/
def find_matching_roles (db : List Job) (skills : List String) (experience_years : ℚ) :
    List RoleData :=
  (((build_role_scores db skills experience_years).map finalize_role).insertionSort
    scoreGe).take 10

/-! ### Stability of the descending insertion sort -/

theorem filter_score_orderedInsert (s : ℚ) (x : RoleData) (l : List RoleData) :
    (l.orderedInsert scoreGe x).filter (fun rd => decide (rd.match_score = s))
      = if x.match_score = s
        then x :: l.filter (fun rd => decide (rd.match_score = s))
        else l.filter (fun rd => decide (rd.match_score = s)) := by
  induction l with
  | nil =>
    by_cases hx : x.match_score = s <;> simp [List.orderedInsert, hx]
  | cons y ys ih =>
    simp only [List.orderedInsert]
    by_cases hr : scoreGe x y
    · rw [if_pos hr]
      by_cases hx : x.match_score = s <;> simp [List.filter_cons, hx]
    · rw [if_neg hr]
      have hlt : x.match_score < y.match_score := lt_of_not_le hr
      rw [List.filter_cons, List.filter_cons, ih]
      by_cases hx : x.match_score = s
      · have hy : ¬ y.match_score = s := by
          intro hy
          rw [hx, hy] at hlt
          exact lt_irrefl s hlt
        simp [hx, hy, List.filter_cons]
      · by_cases hy : y.match_score = s <;> simp [hx, hy, List.filter_cons]

theorem filter_score_insertionSort (s : ℚ) (l : List RoleData) :
    (l.insertionSort scoreGe).filter (fun rd => decide (rd.match_score = s))
      = l.filter (fun rd => decide (rd.match_score = s)) := by
  induction l with
  | nil => rfl
  | cons a l ih =>
    simp only [List.insertionSort, filter_score_orderedInsert, List.filter_cons, ih]
    split_ifs with h1 h2 h2 <;> simp_all

theorem filter_isPrefix {α : Type} (p : α → Bool) {l₁ l₂ : List α} (h : l₁ <+: l₂) :
    l₁.filter p <+: l₂.filter p := by
  obtain ⟨t, rfl⟩ := h
  exact ⟨t.filter p, (List.filter_append _ _).symm⟩

/-- C8: `find_matching_roles` returns at most 10 entries, sorted by
non-increasing match_score, and entries of any equal score keep their
original traversal (dictionary insertion) order: for each score value the
returned entries form a prefix of the corresponding entries of the
unsorted per-title list. -/
theorem C8_top10_sorted_stable (db : List Job) (skills : List String) (e : ℚ) :
    (find_matching_roles db skills e).length ≤ 10 ∧
    List.Pairwise (fun a b => b.match_score ≤ a.match_score) (find_matching_roles db skills e) ∧
    ∀ s : ℚ, (find_matching_roles db skills e).filter (fun rd => decide (rd.match_score = s))
      <+: ((build_role_scores db skills e).map finalize_role).filter
            (fun rd => decide (rd.match_score = s)) := by
  refine ⟨?_, ?_, ?_⟩
  · unfold find_matching_roles
    simp [List.length_take_le]
  · unfold find_matching_roles
    have hs : List.Pairwise scoreGe
        (((build_role_scores db skills e).map finalize_role).insertionSort scoreGe) :=
      List.sorted_insertionSort scoreGe _
    exact (hs.sublist (List.take_sublist _ _))
  · intro s
    have h1 : (find_matching_roles db skills e).filter (fun rd => decide (rd.match_score = s))
        <+: (((build_role_scores db skills e).map finalize_role).insertionSort
              scoreGe).filter (fun rd => decide (rd.match_score = s)) :=
      filter_isPrefix _ (List.take_prefix _ _)
    rwa [filter_score_insertionSort] at h1

/-! ### What the accumulator holds per title -/

/-- The records the loop actually aggregates under a title: non-empty
required skills and exactly that title, in traversal order. -/
def jobsFor (db : List Job) (t : String) : List Job :=
  db.filter (fun j => !j.required_skills.isEmpty && j.title == t)

/-- Sum of the (truthy) salaries of a title's records. -/
def sumSal (db : List Job) (t : String) : ℚ :=
  ((jobsFor db t).map (fun j => j.salary.getD 0)).sum

/-- Number of records aggregated under a title. -/
def cntFor (db : List Job) (t : String) : ℕ := (jobsFor db t).length

/-- Dictionary lookup in the accumulator. -/
def lookupRole (st : List RoleData) (t : String) : Option RoleData :=
  st.find? (fun rd => rd.role == t)

/-- Account a block of further records of title `t` into a row. -/
def absorb (rd : RoleData) (db : List Job) (t : String) : RoleData :=
  { rd with avg_salary := rd.avg_salary + sumSal db t, count := rd.count + cntFor db t }

theorem lookup_bump (st : List RoleData) (title : String) (sal : Option ℚ) (t : String) :
    lookupRole (bump_role st title sal) t =
      (lookupRole st t).map (fun rd => if rd.role == title then
        { rd with avg_salary := rd.avg_salary + sal.getD 0, count := rd.count + 1 } else rd) := by
  unfold lookupRole bump_role
  rw [List.find?_map]
  have hp : ((fun rd : RoleData => rd.role == t) ∘ fun rd => if (rd.role == title) = true then
      { rd with avg_salary := rd.avg_salary + sal.getD 0, count := rd.count + 1 } else rd)
      = (fun rd : RoleData => rd.role == t) := by
    funext rd
    by_cases h : rd.role == title <;> simp [h, Function.comp]
  rw [hp]

theorem jobsFor_cons (j : Job) (db : List Job) (t : String) :
    jobsFor (j :: db) t =
      if !j.required_skills.isEmpty && j.title == t then j :: jobsFor db t
      else jobsFor db t := by
  unfold jobsFor
  rw [List.filter_cons]

/-- The role stored in a row found by title is that title. -/
theorem lookupRole_role {st : List RoleData} {t : String} {rd : RoleData}
    (h : lookupRole st t = some rd) : rd.role = t := by
  unfold lookupRole at h
  have h2 := List.find?_some h
  exact eq_of_beq h2

/-- Effect of one loop iteration on the row of an arbitrary title. -/
theorem lookup_step (sk : List String) (e : ℚ) (j : Job) (st : List RoleData) (t : String) :
    lookupRole (roles_step sk e st j) t =
      if j.required_skills.isEmpty then lookupRole st t
      else if j.title == t then
        match lookupRole st t with
        | some rd => some { rd with avg_salary := rd.avg_salary + j.salary.getD 0, count := rd.count + 1 }
        | none => some ⟨j.title, record_score sk e j, 0 + j.salary.getD 0, j.required_skills.dedup, 0 + 1⟩
      else lookupRole st t := by
  unfold roles_step
  by_cases hempty : j.required_skills.isEmpty
  · rw [if_pos hempty, if_pos hempty]
  · rw [if_neg hempty, if_neg hempty, lookup_bump]
    by_cases ht : j.title = t
    · rw [if_pos (by simp [ht] : (j.title == t) = true)]
      cases hst : lookupRole st t with
      | some rd =>
        have hrd : (rd.role == j.title) = true := by
          simp [lookupRole_role hst, ht]
        have hfound : (st.find? (fun rd => rd.role == j.title)).isSome = true := by
          unfold lookupRole at hst
          rw [ht]
          simp [hst]
        rw [if_pos hfound, hst, Option.map_some', if_pos hrd]
      | none =>
        have hfound : ¬ ((st.find? (fun rd => rd.role == j.title)).isSome = true) := by
          unfold lookupRole at hst
          rw [ht]
          simp [hst]
        rw [if_neg hfound]
        unfold lookupRole at hst ⊢
        simp [List.find?_append, hst, ht]
    · rw [if_neg (by simp [ht] : ¬ ((j.title == t) = true))]
      by_cases hfound : (st.find? (fun rd => rd.role == j.title)).isSome = true
      · rw [if_pos hfound]
        cases hst : lookupRole st t with
        | none => rfl
        | some rd =>
          have hrd : (rd.role == j.title) = false := by
            have h1 := lookupRole_role hst
            simp only [h1, beq_eq_false_iff_ne, ne_eq]
            intro hc
            exact ht hc.symm
          rw [Option.map_some', if_neg (by simp [hrd] : ¬ ((rd.role == j.title) = true))]
      · rw [if_neg hfound]
        unfold lookupRole
        have hnew : (((⟨j.title, record_score sk e j, 0, j.required_skills.dedup, 0⟩ :
            RoleData).role == t)) = false := by
          simp only [beq_eq_false_iff_ne, ne_eq]
          exact ht
        cases hst : st.find? (fun rd => rd.role == t) with
        | none => simp [List.find?_append, hst, hnew]
        | some rd =>
          have hrd : (rd.role == j.title) = false := by
            have h1 : rd.role = t := lookupRole_role hst
            simp only [h1, beq_eq_false_iff_ne, ne_eq]
            intro hc
            exact ht hc.symm
          rw [List.find?_append, hst]
          simp only [Option.or_some, Option.map_some']
          rw [if_neg (by simp [hrd] : ¬ ((rd.role == j.title) = true))]

/-- The content of `role_scores` after folding a block of records over any
starting state: rows present before only accumulate salary sums and counts;
a fresh title appears with the score and skill set of its first record. -/
theorem lookup_fold (sk : List String) (e : ℚ) (db : List Job) (st : List RoleData)
    (t : String) :
    lookupRole (db.foldl (roles_step sk e) st) t =
      match lookupRole st t with
      | some rd => some (absorb rd db t)
      | none => ((jobsFor db t).head?).map
          (fun j0 => absorb ⟨t, record_score sk e j0, 0, j0.required_skills.dedup, 0⟩ db t) := by
  induction db generalizing st with
  | nil =>
    cases hst : lookupRole st t with
    | none => simp [hst, jobsFor]
    | some rd => simp [hst, absorb, sumSal, cntFor, jobsFor]
  | cons j db ih =>
    rw [List.foldl_cons, ih (roles_step sk e st j), lookup_step]
    by_cases hempty : j.required_skills.isEmpty
    · rw [if_pos hempty]
      have hj : jobsFor (j :: db) t = jobsFor db t := by
        rw [jobsFor_cons, if_neg]
        simp [hempty]
      have hs : sumSal (j :: db) t = sumSal db t := by simp [sumSal, hj]
      have hc : cntFor (j :: db) t = cntFor db t := by simp [cntFor, hj]
      cases hst : lookupRole st t with
      | none => simp only [hj, absorb, hs, hc]
      | some rd => simp only [hj, absorb, hs, hc]
    · rw [if_neg hempty]
      by_cases ht : j.title = t
      · have hj : jobsFor (j :: db) t = j :: jobsFor db t := by
          rw [jobsFor_cons, if_pos]
          simp [hempty, ht]
        have hs : sumSal (j :: db) t = j.salary.getD 0 + sumSal db t := by
          simp [sumSal, hj]
        have hc : cntFor (j :: db) t = 1 + cntFor db t := by
          simp only [cntFor, hj, List.length_cons]
          omega
        rw [if_pos (by simp [ht] : (j.title == t) = true)]
        cases hst : lookupRole st t with
        | some rd =>
          simp only [absorb, hs, hc, Option.some.injEq, RoleData.mk.injEq]
          repeat' apply And.intro
          all_goals first | trivial | ring
        | none =>
          simp only [hj, List.head?_cons, Option.map_some', absorb, hs, hc,
            Option.some.injEq, RoleData.mk.injEq]
          repeat' apply And.intro
          all_goals first | trivial | exact ht | ring
      · rw [if_neg (by simp [ht] : ¬ ((j.title == t) = true))]
        have hj : jobsFor (j :: db) t = jobsFor db t := by
          rw [jobsFor_cons, if_neg]
          intro hcond
          rw [Bool.and_eq_true] at hcond
          exact ht (eq_of_beq hcond.2)
        have hs : sumSal (j :: db) t = sumSal db t := by simp [sumSal, hj]
        have hc : cntFor (j :: db) t = cntFor db t := by simp [cntFor, hj]
        cases hst : lookupRole st t with
        | none => simp only [hj, absorb, hs, hc]
        | some rd => simp only [hj, absorb, hs, hc]

/-! ### Uniqueness of titles in the accumulator -/

theorem roles_of_step (sk : List String) (e : ℚ) (st : List RoleData) (j : Job) :
    (roles_step sk e st j).map RoleData.role =
      if j.required_skills.isEmpty then st.map RoleData.role
      else if (st.find? (fun rd => rd.role == j.title)).isSome then st.map RoleData.role
      else st.map RoleData.role ++ [j.title] := by
  unfold roles_step
  by_cases hempty : j.required_skills.isEmpty
  · rw [if_pos hempty, if_pos hempty]
  · rw [if_neg hempty, if_neg hempty]
    dsimp only
    have hbump : ∀ l : List RoleData, (bump_role l j.title j.salary).map RoleData.role
        = l.map RoleData.role := by
      intro l
      unfold bump_role
      rw [List.map_map]
      congr 1
      funext rd
      by_cases h : rd.role == j.title <;> simp [h, Function.comp]
    by_cases hfound : (st.find? (fun rd => rd.role == j.title)).isSome = true
    · rw [if_pos hfound, if_pos hfound, hbump]
    · rw [if_neg hfound, if_neg hfound, hbump, List.map_append]
      rfl

theorem build_roles_nodup (db : List Job) (sk : List String) (e : ℚ) :
    ((build_role_scores db sk e).map RoleData.role).Nodup := by
  unfold build_role_scores
  suffices h : ∀ st : List RoleData, (st.map RoleData.role).Nodup →
      ((db.foldl (roles_step sk e) st).map RoleData.role).Nodup by
    exact h [] (by simp)
  induction db with
  | nil => intro st h; exact h
  | cons j db ih =>
    intro st h
    rw [List.foldl_cons]
    apply ih
    rw [roles_of_step]
    by_cases hempty : j.required_skills.isEmpty
    · rwa [if_pos hempty]
    · rw [if_neg hempty]
      by_cases hfound : (st.find? (fun rd => rd.role == j.title)).isSome = true
      · rwa [if_pos hfound]
      · rw [if_neg hfound]
        have hnone : st.find? (fun rd => rd.role == j.title) = none := by
          cases hf : st.find? (fun rd => rd.role == j.title) with
          | none => rfl
          | some rd => rw [hf] at hfound; simp at hfound
        rw [List.find?_eq_none] at hnone
        have hnotmem : j.title ∉ st.map RoleData.role := by
          intro hmem
          obtain ⟨rd, hrd, hrole⟩ := List.mem_map.mp hmem
          exact hnone rd hrd (by simp [hrole])
        simp [List.nodup_append, h, hnotmem]

theorem lookupRole_of_mem {st : List RoleData} (hnd : (st.map RoleData.role).Nodup)
    {rd : RoleData} (h : rd ∈ st) : lookupRole st rd.role = some rd := by
  induction st with
  | nil => cases h
  | cons a l ih =>
    rw [List.map_cons, List.nodup_cons] at hnd
    rcases List.mem_cons.mp h with rfl | hmem
    · unfold lookupRole
      rw [List.find?_cons, show (rd.role == rd.role) = true from by simp]
    · have hne : (a.role == rd.role) = false := by
        have : rd.role ∈ l.map RoleData.role := List.mem_map.mpr ⟨rd, hmem, rfl⟩
        simp only [beq_eq_false_iff_ne, ne_eq]
        intro hc
        rw [hc] at hnd
        exact hnd.1 this
      unfold lookupRole at ih ⊢
      rw [List.find?_cons, hne]
      exact ih hnd.2 hmem

theorem finalize_role_role (rd : RoleData) : (finalize_role rd).role = rd.role := by
  unfold finalize_role
  split_ifs <;> rfl

theorem finalize_role_score (rd : RoleData) :
    (finalize_role rd).match_score = rd.match_score := by
  unfold finalize_role
  split_ifs <;> rfl

theorem finalize_role_avg (rd : RoleData) :
    (finalize_role rd).avg_salary =
      if 0 < rd.count ∧ 0 < rd.avg_salary then rd.avg_salary / (rd.count : ℚ)
      else rd.avg_salary := by
  unfold finalize_role
  split_ifs <;> rfl

theorem finalize_role_count (rd : RoleData) : (finalize_role rd).count = rd.count := by
  unfold finalize_role
  split_ifs <;> rfl

/-- Every entry of the returned list is the finalisation of a row of the
accumulator, and that row is the aggregate of the title's records. -/
theorem output_entry_spec (db : List Job) (skills : List String) (e : ℚ)
    (entry : RoleData) (hmem : entry ∈ find_matching_roles db skills e) :
    ∃ j0, (jobsFor db entry.role).head? = some j0 ∧
      entry.match_score = record_score skills e j0 ∧
      entry.avg_salary = (if 0 < cntFor db entry.role ∧ 0 < sumSal db entry.role
        then sumSal db entry.role / (cntFor db entry.role : ℚ)
        else sumSal db entry.role) := by
  obtain ⟨rd, hrd_mem, hfin⟩ : ∃ rd ∈ build_role_scores db skills e,
      finalize_role rd = entry := by
    unfold find_matching_roles at hmem
    have h1 := (List.take_sublist _ _).subset hmem
    rw [List.mem_insertionSort] at h1
    exact List.mem_map.mp h1
  have hnd := build_roles_nodup db skills e
  have hl : lookupRole (build_role_scores db skills e) rd.role = some rd :=
    lookupRole_of_mem hnd hrd_mem
  unfold build_role_scores at hl
  rw [lookup_fold] at hl
  simp only [show lookupRole [] rd.role = none from rfl] at hl
  have hrole : entry.role = rd.role := by rw [← hfin, finalize_role_role]
  cases hh : (jobsFor db rd.role).head? with
  | none =>
    rw [hh] at hl
    simp at hl
  | some j0 =>
    rw [hh, Option.map_some'] at hl
    have hrd_eq : rd = absorb ⟨rd.role, record_score skills e j0, 0,
        j0.required_skills.dedup, 0⟩ db rd.role := by
      injection hl with h'
      exact h'.symm
    refine ⟨j0, ?_, ?_, ?_⟩
    · rw [hrole, hh]
    · rw [← hfin, finalize_role_score, hrd_eq]
      rfl
    · have havg : rd.avg_salary = sumSal db rd.role := by
        conv_lhs => rw [hrd_eq]
        simp [absorb]
      have hcnt : rd.count = cntFor db rd.role := by
        conv_lhs => rw [hrd_eq]
        simp [absorb]
      rw [hrole, ← hfin, finalize_role_avg, havg, hcnt]

/-- C1 (amended): the match_score that `find_matching_roles` reports for a
role title is the per-record score of the **first** traversed record
bearing that title (the row is created from the first record and its score
is never overwritten), not of the last. -/
theorem C1_first_record_score (db : List Job) (skills : List String) (e : ℚ)
    (entry : RoleData) (hmem : entry ∈ find_matching_roles db skills e) :
    ∃ j0, (jobsFor db entry.role).head? = some j0 ∧
      entry.match_score = record_score skills e j0 := by
  obtain ⟨j0, h1, h2, _⟩ := output_entry_spec db skills e entry hmem
  exact ⟨j0, h1, h2⟩

/-- C4 (amended): the avg_salary that `find_matching_roles` reports for a
title is the sum of the title's non-null salaries divided by the count of
**all** of the title's records (with non-empty required skills), not by the
count of its salary-bearing records; when the salary sum is not positive
the raw sum is reported unchanged. -/
theorem C4_avg_over_all_records (db : List Job) (skills : List String) (e : ℚ)
    (entry : RoleData) (hmem : entry ∈ find_matching_roles db skills e) :
    entry.avg_salary = (if 0 < cntFor db entry.role ∧ 0 < sumSal db entry.role
      then sumSal db entry.role / (cntFor db entry.role : ℚ)
      else sumSal db entry.role) := by
  obtain ⟨_, _, _, h3⟩ := output_entry_spec db skills e entry hmem
  exact h3

/-! ### Concrete stores exercising the per-title aggregation -/

/-- First "Dev" record: one required skill, fully matched. -/
def devJob1 : Job := ⟨"Dev", "", ["A"], 0, none, 0⟩

/-- Second "Dev" record: two required skills, half matched. -/
def devJob2 : Job := ⟨"Dev", "", ["A", "B"], 0, none, 0⟩

/-- A "Dev" record with a salary, and one with a null salary. -/
def payJob1 : Job := ⟨"Dev", "", ["A"], 0, some 100000, 0⟩

def payJob2 : Job := ⟨"Dev", "", ["A"], 0, none, 0⟩

theorem record_score_devJob1 : record_score ["A"] 0 devJob1 = 1 := by
  simp only [record_score, devJob1, show (["A"] : List String).dedup = ["A"] from rfl,
    show ((["A"] : List String).filter (fun s => (["A"] : List String).contains s))
      = ["A"] from rfl]
  norm_num [pymax, pyabs]

theorem record_score_devJob2 : record_score ["A"] 0 devJob2 = 13/20 := by
  simp only [record_score, devJob2, show (["A", "B"] : List String).dedup = ["A", "B"] from rfl,
    show ((["A", "B"] : List String).filter (fun s => (["A"] : List String).contains s))
      = ["A"] from rfl]
  norm_num [pymax, pyabs]

theorem eval_c1 : find_matching_roles [devJob1, devJob2] ["A"] 0
    = [⟨"Dev", 1, 0, ["A"], 2⟩] := by
  have h1 : roles_step ["A"] 0 [] devJob1 = [⟨"Dev", 1, 0 + 0, ["A"], 0 + 1⟩] := by
    rw [roles_step]
    norm_num [record_score_devJob1, bump_role,
      show devJob1.required_skills = ["A"] from rfl,
      show devJob1.title = "Dev" from rfl,
      show devJob1.salary = (none : Option ℚ) from rfl,
      show (["A"] : List String).dedup = ["A"] from rfl]
  have h2 : roles_step ["A"] 0 [⟨"Dev", 1, 0 + 0, ["A"], 0 + 1⟩] devJob2
      = [⟨"Dev", 1, 0 + 0 + 0, ["A"], 0 + 1 + 1⟩] := by
    rw [roles_step]
    norm_num [bump_role,
      show devJob2.required_skills = ["A", "B"] from rfl,
      show devJob2.title = "Dev" from rfl,
      show devJob2.salary = (none : Option ℚ) from rfl]
  rw [find_matching_roles, build_role_scores, List.foldl_cons, h1, List.foldl_cons, h2,
    List.foldl_nil]
  norm_num [finalize_role, List.insertionSort, List.orderedInsert]

theorem eval_c4 : find_matching_roles [payJob1, payJob2] ["A"] 0
    = [⟨"Dev", 1, 50000, ["A"], 2⟩] := by
  have h1 : roles_step ["A"] 0 [] payJob1 = [⟨"Dev", 1, 0 + 100000, ["A"], 0 + 1⟩] := by
    rw [roles_step]
    have hsc : record_score ["A"] 0 payJob1 = 1 := by
      simp only [record_score, payJob1, show (["A"] : List String).dedup = ["A"] from rfl,
        show ((["A"] : List String).filter (fun s => (["A"] : List String).contains s))
          = ["A"] from rfl]
      norm_num [pymax, pyabs]
    norm_num [hsc, bump_role,
      show payJob1.required_skills = ["A"] from rfl,
      show payJob1.title = "Dev" from rfl,
      show payJob1.salary = (some 100000 : Option ℚ) from rfl,
      show (["A"] : List String).dedup = ["A"] from rfl]
  have h2 : roles_step ["A"] 0 [⟨"Dev", 1, 0 + 100000, ["A"], 0 + 1⟩] payJob2
      = [⟨"Dev", 1, 0 + 100000 + 0, ["A"], 0 + 1 + 1⟩] := by
    rw [roles_step]
    norm_num [bump_role,
      show payJob2.required_skills = ["A"] from rfl,
      show payJob2.title = "Dev" from rfl,
      show payJob2.salary = (none : Option ℚ) from rfl]
  rw [find_matching_roles, build_role_scores, List.foldl_cons, h1, List.foldl_cons, h2,
    List.foldl_nil]
  norm_num [finalize_role, List.insertionSort, List.orderedInsert]

/-- C1 counterexample: with two "Dev" records of different per-record
scores, the reported match_score is the first record's score 1.0, not the
last record's 0.65. -/
theorem C1_counterexample :
    (find_matching_roles [devJob1, devJob2] ["A"] 0).map RoleData.match_score = [1] ∧
    record_score ["A"] 0 devJob2 = 13/20 ∧ (1 : ℚ) ≠ 13/20 := by
  refine ⟨?_, record_score_devJob2, by norm_num⟩
  rw [eval_c1]
  rfl

/-- Witness for C1 (amended) on the two-record store. -/
theorem C1_witness :
    (⟨"Dev", 1, 0, ["A"], 2⟩ : RoleData) ∈ find_matching_roles [devJob1, devJob2] ["A"] 0 ∧
    ∃ j0, (jobsFor [devJob1, devJob2] (RoleData.role ⟨"Dev", 1, 0, ["A"], 2⟩)).head? = some j0 ∧
      (RoleData.match_score ⟨"Dev", 1, 0, ["A"], 2⟩) = record_score ["A"] 0 j0 :=
  have hmem : (⟨"Dev", 1, 0, ["A"], 2⟩ : RoleData) ∈
      find_matching_roles [devJob1, devJob2] ["A"] 0 := by
    rw [eval_c1]
    exact List.mem_singleton.mpr rfl
  ⟨hmem, C1_first_record_score [devJob1, devJob2] ["A"] 0 _ hmem⟩

/-- C4 counterexample: one salary 100000 and one null salary under the same
title give a reported avg_salary of 50000 (sum divided by the count of all
records), not 100000 (the mean of the non-null salaries). -/
theorem C4_counterexample :
    (find_matching_roles [payJob1, payJob2] ["A"] 0).map RoleData.avg_salary = [50000] ∧
    (([payJob1, payJob2].filterMap Job.salary).sum
      / (([payJob1, payJob2].filterMap Job.salary).length : ℚ)) = 100000 ∧
    (50000 : ℚ) ≠ 100000 := by
  refine ⟨?_, ?_, by norm_num⟩
  · rw [eval_c4]
    rfl
  · norm_num [payJob1, payJob2, List.filterMap_cons, List.filterMap_nil]

/-- Witness for C4 (amended) on the same store. -/
theorem C4_witness :
    (⟨"Dev", 1, 50000, ["A"], 2⟩ : RoleData) ∈ find_matching_roles [payJob1, payJob2] ["A"] 0 ∧
    (RoleData.avg_salary ⟨"Dev", 1, 50000, ["A"], 2⟩) =
      (if 0 < cntFor [payJob1, payJob2] (RoleData.role ⟨"Dev", 1, 50000, ["A"], 2⟩)
          ∧ 0 < sumSal [payJob1, payJob2] (RoleData.role ⟨"Dev", 1, 50000, ["A"], 2⟩)
        then sumSal [payJob1, payJob2] (RoleData.role ⟨"Dev", 1, 50000, ["A"], 2⟩)
          / (cntFor [payJob1, payJob2] (RoleData.role ⟨"Dev", 1, 50000, ["A"], 2⟩) : ℚ)
        else sumSal [payJob1, payJob2] (RoleData.role ⟨"Dev", 1, 50000, ["A"], 2⟩)) :=
  have hmem : (⟨"Dev", 1, 50000, ["A"], 2⟩ : RoleData) ∈
      find_matching_roles [payJob1, payJob2] ["A"] 0 := by
    rw [eval_c4]
    exact List.mem_singleton.mpr rfl
  ⟨hmem, C4_avg_over_all_records [payJob1, payJob2] ["A"] 0 _ hmem⟩

/-! ### Trends service (`backend/services/trends_service.py`) -/

/-- Function `_get_days_from_range`: the time-range table with default 90. -/
def get_days_from_range (time_range : String) : ℕ :=
  match ([("1m", 30), ("3m", 90), ("6m", 180), ("1y", 365)] :
      List (String × ℕ)).find? (fun p => p.1 == time_range) with
  | some p => p.2
  | none => 90

/-- The base query of `_calculate_skill_growth`: records containing the
skill, optionally filtered by role and location. -/
def growth_base (db : List Job) (skill : String) (role location : Option String) :
    List Job :=
  db.filter (fun j => j.required_skills.contains skill
    && (match role with | some r => ilike r j.title | none => true)
    && (match location with | some loc => ilike loc j.location | none => true))

/-- Count of base records posted on or after the window midpoint
(`days // 2` days before now). -/
def recentCount (db : List Job) (skill : String) (role location : Option String)
    (now : ℚ) (days : ℕ) : ℕ :=
  ((growth_base db skill role location).filter
    (fun j => decide (now - ((days / 2 : ℕ) : ℚ) ≤ j.posted_date))).length

/-- Count of base records posted in the first half of the window. -/
def olderCount (db : List Job) (skill : String) (role location : Option String)
    (now : ℚ) (days : ℕ) : ℕ :=
  ((growth_base db skill role location).filter
    (fun j => decide (now - (days : ℚ) ≤ j.posted_date)
      && decide (j.posted_date < now - ((days / 2 : ℕ) : ℚ)))).length

/-- Function `_calculate_skill_growth`: saturating growth rate between the two half
windows, rounded to 2 decimals. -/
def calculate_skill_growth (db : List Job) (skill : String) (days : ℕ)
    (role location : Option String) (now : ℚ) : ℚ :=
  let recent_count := recentCount db skill role location now days
  let older_count := olderCount db skill role location now days
  if older_count = 0 then (if 0 < recent_count then 100.0 else 0.0)
  else round2 (((recent_count : ℚ) - (older_count : ℚ)) / (older_count : ℚ) * 100)

/-- C9 (amended): the growth rate is 100.0 when the older half is empty
and the recent half is not, 0.0 when both are empty, and otherwise
100·(recent − older)/older **rounded to 2 decimals** (the claim's exact
quotient only holds up to that rounding). -/
theorem C9_growth_rate_branches (db : List Job) (skill : String) (days : ℕ)
    (role location : Option String) (now : ℚ) :
    (olderCount db skill role location now days = 0 →
      0 < recentCount db skill role location now days →
      calculate_skill_growth db skill days role location now = 100.0) ∧
    (olderCount db skill role location now days = 0 →
      recentCount db skill role location now days = 0 →
      calculate_skill_growth db skill days role location now = 0.0) ∧
    (0 < olderCount db skill role location now days →
      calculate_skill_growth db skill days role location now
        = round2 (((recentCount db skill role location now days : ℚ)
            - (olderCount db skill role location now days : ℚ))
            / (olderCount db skill role location now days : ℚ) * 100)) := by
  unfold calculate_skill_growth
  refine ⟨?_, ?_, ?_⟩
  · intro ho hr
    rw [if_pos ho, if_pos hr]
  · intro ho hr
    rw [if_pos ho, if_neg (by omega)]
  · intro ho
    rw [if_neg (by omega)]

/-- A record carrying skill "S" posted on day `d`. -/
def sJob (d : ℚ) : Job := ⟨"T", "L", ["S"], 0, none, d⟩

/-- Three records in the older half of a 90-day window ending at day 1000,
four in the recent half. -/
def dbC9 : List Job :=
  [sJob 910, sJob 920, sJob 930, sJob 960, sJob 970, sJob 980, sJob 990]

theorem recentCount_dbC9 : recentCount dbC9 "S" none none 1000 90 = 4 := by
  norm_num [recentCount, growth_base, dbC9, sJob]

theorem olderCount_dbC9 : olderCount dbC9 "S" none none 1000 90 = 3 := by
  norm_num [olderCount, growth_base, dbC9, sJob]

/-- C9 counterexample: with older = 3 and recent = 4 the code returns the
2-decimal rounding 33.33, while the claim's exact quotient is 100/3. -/
theorem C9_counterexample :
    calculate_skill_growth dbC9 "S" 90 none none 1000 = 3333/100 ∧
    100 * ((recentCount dbC9 "S" none none 1000 90 : ℚ)
        - (olderCount dbC9 "S" none none 1000 90 : ℚ))
      / (olderCount dbC9 "S" none none 1000 90 : ℚ) = 100/3 ∧
    ((3333:ℚ)/100) ≠ 100/3 := by
  refine ⟨?_, ?_, by norm_num⟩
  · unfold calculate_skill_growth
    rw [recentCount_dbC9, olderCount_dbC9]
    norm_num [round2, rne_eval]
  · rw [recentCount_dbC9, olderCount_dbC9]
    norm_num

/-- Witness for C9 (amended): a store with an empty older half and one
recent record saturates at 100.0, and the rounded-quotient branch fires on
`dbC9`. -/
theorem C9_witness :
    (olderCount [sJob 990] "S" none none 1000 90 = 0 ∧
      0 < recentCount [sJob 990] "S" none none 1000 90 ∧
      calculate_skill_growth [sJob 990] "S" 90 none none 1000 = 100.0) ∧
    (0 < olderCount dbC9 "S" none none 1000 90 ∧
      calculate_skill_growth dbC9 "S" 90 none none 1000
        = round2 (((recentCount dbC9 "S" none none 1000 90 : ℚ)
            - (olderCount dbC9 "S" none none 1000 90 : ℚ))
            / (olderCount dbC9 "S" none none 1000 90 : ℚ) * 100)) := by
  have ho : olderCount [sJob 990] "S" none none 1000 90 = 0 := by
    norm_num [olderCount, growth_base, sJob]
  have hr : recentCount [sJob 990] "S" none none 1000 90 = 1 := by
    norm_num [recentCount, growth_base, sJob]
  have ho9 : 0 < olderCount dbC9 "S" none none 1000 90 := by
    rw [olderCount_dbC9]
    norm_num
  exact ⟨⟨ho, by rw [hr]; norm_num,
      (C9_growth_rate_branches [sJob 990] "S" 90 none none 1000).1 ho (by rw [hr]; norm_num)⟩,
    ⟨ho9, (C9_growth_rate_branches dbC9 "S" 90 none none 1000).2.2 ho9⟩⟩

/-! ### Sorting relations used by the query functions -/

def qLe (a b : ℚ) : Prop := a ≤ b

instance : DecidableRel qLe := fun a b => inferInstanceAs (Decidable (a ≤ b))

def dateLe (a b : Job) : Prop := a.posted_date ≤ b.posted_date

instance : DecidableRel dateLe := fun a b => inferInstanceAs (Decidable (a.posted_date ≤ b.posted_date))

def keyLe (a b : String × List ℚ) : Prop := a.1 < b.1 ∨ a.1 = b.1

instance : DecidableRel keyLe := fun p q => inferInstanceAs (Decidable (p.1 < q.1 ∨ p.1 = q.1))

def cntGe (a b : String × ℕ) : Prop := b.2 ≤ a.2

instance : DecidableRel cntGe := fun a b => inferInstanceAs (Decidable (b.2 ≤ a.2))

/-! ### numpy percentile / median (linear interpolation) -/

/-- Numpy `np.percentile(l, p)` with the default linear interpolation. -/
def npPercentile (l : List ℚ) (p : ℚ) : ℚ :=
  let s := l.insertionSort qLe
  if s.isEmpty then 0
  else
    let n := s.length
    let q := ((n : ℚ) - 1) * p / 100
    let i := (⌊q⌋).toNat
    let g := q - ⌊q⌋
    match s.get? i, s.get? (i+1) with
    | some a, some b => a + g * (b - a)
    | some a, none => a
    | _, _ => 0

/-- Numpy `np.median`: mean of the middle element(s) of the sorted list. -/
def npMedian (l : List ℚ) : ℚ :=
  let s := l.insertionSort qLe
  let n := s.length
  if n = 0 then 0
  else if n % 2 = 1 then (s.get? (n / 2)).getD 0
  else (((s.get? (n / 2 - 1)).getD 0) + ((s.get? (n / 2)).getD 0)) / 2

/-! ### Calendar months (`posted_date.strftime("%Y-%m")`) -/

/-- Proleptic Gregorian (year, month) of a day number counted from
1970-01-01, by the standard civil-from-days conversion. -/
def civilOfDay (z : ℤ) : ℤ × ℤ :=
  let z' := z + 719468
  let era := Int.fdiv z' 146097
  let doe := z' - era * 146097
  let yoe := Int.fdiv (doe - Int.fdiv doe 1460 + Int.fdiv doe 36524 - Int.fdiv doe 146096) 365
  let doy := doe - (365 * yoe + Int.fdiv yoe 4 - Int.fdiv yoe 100)
  let mp := Int.fdiv (5 * doy + 2) 153
  let m := if mp < 10 then mp + 3 else mp - 9
  let y := era * 400 + yoe + (if m ≤ 2 then 1 else 0)
  (y, m)

def pad2 (m : ℤ) : String := if m < 10 then "0" ++ toString m else toString m

/-- The `"%Y-%m"` month key of a timestamp. -/
def monthKey (ts : ℚ) : String :=
  let ym := civilOfDay ts.floor
  toString ym.1 ++ "-" ++ pad2 ym.2

/-! ### `get_salary_range` (salary service) -/

inductive RangeResult where
  | err (msg : String)
  | ok (role : String) (location : String) (mn mx median mean p25 p75 : ℚ)
      (sample_size : ℕ)

/-- The salary column of the filtered query of `get_salary_range`. -/
def range_salaries (db : List Job) (role : String) (location : Option String) : List ℚ :=
  db.filterMap (fun j =>
    if ilike role j.title
        && (match location with | some loc => ilike loc j.location | none => true)
      then j.salary else none)

/-- Function `SalaryService.get_salary_range`. -/
def get_salary_range (db : List Job) (role : String) (location : Option String) :
    RangeResult :=
  let salaries := range_salaries db role location
  if salaries.isEmpty then .err "No data found for this role"
  else .ok role (location.getD "All locations")
    ((salaries.min?).getD 0) ((salaries.max?).getD 0)
    (npMedian salaries) (salaries.sum / (salaries.length : ℚ))
    (npPercentile salaries 25) (npPercentile salaries 75) salaries.length

/-! ### `get_salary_trends` (trends service) -/

structure MonthStat where
  month : String
  avg_salary : ℚ
  median_salary : ℚ
  sample_size : ℕ

inductive TrendsResult where
  | err (msg : String)
  | ok (role : String) (location : Option String) (time_range : String)
      (trends : List MonthStat) (overall_change_pct : ℚ)

/-- The filtered query of `get_salary_trends`: title match, window,
non-null salary, optional location. -/
def trends_query (db : List Job) (role : String) (location : Option String)
    (start_date : ℚ) : List Job :=
  db.filter (fun j => ilike role j.title && decide (start_date ≤ j.posted_date)
    && j.salary.isSome
    && (match location with | some loc => ilike loc j.location | none => true))

/-- Append a salary to its month's bucket, keeping first-seen month order. -/
def addToGroup : List (String × List ℚ) → String → ℚ → List (String × List ℚ)
  | [], k, v => [(k, [v])]
  | (k', vs) :: t, k, v =>
    if k' == k then (k', vs ++ [v]) :: t else (k', vs) :: addToGroup t k v

/-- Function `TrendsService.get_salary_trends`. -/
def get_salary_trends (db : List Job) (role : String) (time_range : String)
    (location : Option String) (now : ℚ) : TrendsResult :=
  let days := get_days_from_range time_range
  let start_date := now - (days : ℚ)
  let jobs := (trends_query db role location start_date).insertionSort dateLe
  if jobs.isEmpty then .err "No data found"
  else
    let monthly := jobs.foldl
      (fun acc j => addToGroup acc (monthKey j.posted_date) (j.salary.getD 0)) []
    let monthlySorted := monthly.insertionSort keyLe
    let trends := monthlySorted.map (fun p =>
      MonthStat.mk p.1 (p.2.sum / (p.2.length : ℚ)) (npMedian p.2) p.2.length)
    let overall_change : ℚ :=
      if 2 ≤ trends.length then
        match trends.head?, trends.getLast? with
        | some f, some l => (l.avg_salary - f.avg_salary) / f.avg_salary * 100
        | _, _ => 0
      else 0
    .ok role location time_range trends (round2 overall_change)

/-! ### `get_role_requirements` (career service) -/

inductive RoleReqResult where
  | err (msg : String)
  | ok (role : String) (skills : List String) (avg_salary : ℚ) (avg_experience : ℚ)
      (sample_size : ℕ)

/-- The records whose title contains the role, case-insensitively. -/
def title_jobs (db : List Job) (role_name : String) : List Job :=
  db.filter (fun j => ilike role_name j.title)

/-- Update of a `collections.Counter`, keeping first-insertion order. -/
def bumpCount : List (String × ℕ) → String → List (String × ℕ)
  | [], k => [(k, 1)]
  | (k', c) :: t, k => if k' == k then (k', c + 1) :: t else (k', c) :: bumpCount t k

/-- Python `Counter.most_common(n)`: stable sort by count descending, first n. -/
def most_common (counts : List (String × ℕ)) (n : ℕ) : List (String × ℕ) :=
  (counts.insertionSort cntGe).take n

/-- Function `CareerService.get_role_requirements`. -/
def get_role_requirements (db : List Job) (role_name : String) : RoleReqResult :=
  let jobs := title_jobs db role_name
  if jobs.isEmpty then .err "Role not found"
  else
    let all_skills := jobs.foldl (fun acc j => acc ++ j.required_skills) []
    let salaries := jobs.filterMap (fun j => truthySal j.salary)
    let experience_levels := jobs.map Job.experience_required
    let skill_counts := all_skills.foldl bumpCount []
    let top_skills := (most_common skill_counts 15).map Prod.fst
    .ok role_name top_skills
      (if salaries.isEmpty then 0 else salaries.sum / (salaries.length : ℚ))
      (experience_levels.sum / (experience_levels.length : ℚ))
      jobs.length

/-! ### C5: empty query results -/

/-- C5 counterexample: on an empty store all three cited operations return
an error marker, not a neutral default. -/
theorem C5_counterexample :
    get_salary_range [] "Engineer" none = RangeResult.err "No data found for this role" ∧
    get_salary_trends [] "Engineer" "3m" none 0 = TrendsResult.err "No data found" ∧
    get_role_requirements [] "Engineer" = RoleReqResult.err "Role not found" :=
  ⟨rfl, rfl, rfl⟩

/-- C5 (amended): when no records match, `get_salary_range`,
`get_salary_trends` and `get_role_requirements` return error dictionaries
("No data found for this role", "No data found", "Role not found"); the
neutral-default behaviour of the claim holds only for the market
percentile, which falls back to 50.0. -/
theorem C5_empty_query_behaviour :
    (∀ (db : List Job) (role : String) (location : Option String),
      range_salaries db role location = [] →
      get_salary_range db role location = RangeResult.err "No data found for this role") ∧
    (∀ (db : List Job) (role time_range : String) (location : Option String) (now : ℚ),
      trends_query db role location (now - (get_days_from_range time_range : ℚ)) = [] →
      get_salary_trends db role time_range location now = TrendsResult.err "No data found") ∧
    (∀ (db : List Job) (role_name : String),
      title_jobs db role_name = [] →
      get_role_requirements db role_name = RoleReqResult.err "Role not found") ∧
    (∀ (db : List Job) (salary : ℚ) (role location : String),
      db.filterMap (fun j => if ilike role j.title then j.salary else none) = [] →
      calculate_market_percentile db salary role location = 50.0) := by
  refine ⟨?_, ?_, ?_, ?_⟩
  · intro db role location h
    unfold get_salary_range
    rw [h]
    rfl
  · intro db role time_range location now h
    unfold get_salary_trends
    dsimp only
    rw [h]
    rfl
  · intro db role_name h
    unfold get_role_requirements
    rw [h]
    rfl
  · intro db salary role location h
    unfold calculate_market_percentile
    rw [h]
    rfl

/-- Witness for C5 (amended) on the empty store. -/
theorem C5_witness :
    (range_salaries [] "x" none = [] ∧
      get_salary_range [] "x" none = RangeResult.err "No data found for this role") ∧
    (trends_query [] "x" none (0 - (get_days_from_range "3m" : ℚ)) = [] ∧
      get_salary_trends [] "x" "3m" none 0 = TrendsResult.err "No data found") ∧
    (title_jobs [] "x" = [] ∧
      get_role_requirements [] "x" = RoleReqResult.err "Role not found") ∧
    (([] : List Job).filterMap (fun j => if ilike "x" j.title then j.salary else none) = [] ∧
      calculate_market_percentile [] 100000 "x" "y" = 50.0) :=
  ⟨⟨rfl, C5_empty_query_behaviour.1 [] "x" none rfl⟩,
   ⟨rfl, C5_empty_query_behaviour.2.1 [] "x" "3m" none 0 rfl⟩,
   ⟨rfl, C5_empty_query_behaviour.2.2.1 [] "x" rfl⟩,
   ⟨rfl, C5_empty_query_behaviour.2.2.2 [] 100000 "x" "y" rfl⟩⟩

/-! ### Skills service (`backend/services/skills_service.py`) -/

/-- Table `SkillsService.skill_categories`, in definition order. -/
def skill_categories : List (String × List String) :=
  [("Programming Languages",
    ["Python", "JavaScript", "Java", "TypeScript", "Go", "Rust", "C++", "C#"]),
   ("Frontend", ["React", "Vue", "Angular", "HTML", "CSS", "Next.js"]),
   ("Backend", ["Node.js", "Express", "Django", "Flask", "Spring"]),
   ("Database", ["PostgreSQL", "MySQL", "MongoDB", "Redis"]),
   ("Cloud & DevOps", ["AWS", "Azure", "GCP", "Docker", "Kubernetes"]),
   ("Data Science & ML", ["Machine Learning", "TensorFlow", "PyTorch", "Pandas"])]

/-- The lower-cased `known_skills` set built by `validate_skills`. -/
def known_skills : List (List Char) :=
  (skill_categories.map (fun c => c.2.map lowerCL)).flatten

/-- What the nested category loops append for one input skill: per
category, the first taxonomy entry whose lower-case equals the input's;
an unknown skill is kept unchanged. -/
def perSkillValid (skill : String) : List String :=
  let skill_lower := lowerCL skill
  if known_skills.contains skill_lower then
    (skill_categories.map (fun c =>
      match c.2.find? (fun k => lowerCL k == skill_lower) with
      | some k => [k]
      | none => [])).flatten
  else [skill]

structure ValidateResult where
  valid_skills : List String
  invalid_skills : List String

/-- Function `SkillsService.validate_skills`: the loop never appends to
`invalid_skills`. -/
def validate_skills (skills : List String) : ValidateResult :=
  ⟨(skills.map perSkillValid).flatten, []⟩

/-- All taxonomy entries in definition order. -/
def all_canonical : List String := (skill_categories.map (fun c => c.2)).flatten

/-- The canonical casing of a skill: the first taxonomy entry matching it
case-insensitively, or the skill itself. -/
def canonicalize (skill : String) : String :=
  match all_canonical.find? (fun k => lowerCL k == lowerCL skill) with
  | some k => k
  | none => skill

theorem join_singletons (f : String → String) (l : List String) :
    (l.map (fun s => [f s])).flatten = l.map f := by
  induction l with
  | nil => rfl
  | cons a t ih => simp [ih]

/-- Over the concrete taxonomy, a known lower-cased skill matches exactly
one category, and its canonical entry is the find over all entries. -/
theorem catMatches_known : ∀ l ∈ known_skills,
    (skill_categories.map (fun c =>
      match c.2.find? (fun k => lowerCL k == l) with
      | some k => [k]
      | none => [])).flatten
    = [(all_canonical.find? (fun k => lowerCL k == l)).getD ""] := by
  decide

theorem canonical_lower : ∀ k ∈ all_canonical, lowerCL k ∈ known_skills := by
  decide

theorem perSkillValid_eq (s : String) : perSkillValid s = [canonicalize s] := by
  unfold perSkillValid canonicalize
  by_cases h : lowerCL s ∈ known_skills
  · rw [if_pos (by simpa [List.contains, List.elem_iff] using h)]
    rw [catMatches_known (lowerCL s) h]
    cases hf : all_canonical.find? (fun k => lowerCL k == lowerCL s) with
    | none =>
      exfalso
      rw [List.find?_eq_none] at hf
      -- l ∈ known_skills means some taxonomy entry lowers to it
      have : ∃ k ∈ all_canonical, lowerCL k = lowerCL s := by
        unfold known_skills at h
        simp only [List.mem_flatten, List.mem_map] at h
        obtain ⟨ll, ⟨c, hc, rfl⟩, hmem⟩ := h
        obtain ⟨k, hk, hlk⟩ := List.mem_map.mp hmem
        refine ⟨k, ?_, hlk⟩
        unfold all_canonical
        simp only [List.mem_flatten, List.mem_map]
        exact ⟨c.2, ⟨c, hc, rfl⟩, hk⟩
      obtain ⟨k, hk, hlk⟩ := this
      exact hf k hk (by simp [hlk])
    | some k => simp
  · rw [if_neg (by simpa [List.contains, List.elem_iff] using h)]
    cases hf : all_canonical.find? (fun k => lowerCL k == lowerCL s) with
    | none => rfl
    | some k =>
      exfalso
      have hk := List.mem_of_find?_eq_some hf
      have hlk : lowerCL k = lowerCL s := by
        have := List.find?_some hf
        exact eq_of_beq this
      exact h (hlk ▸ canonical_lower k hk)

/-- C10: `validate_skills` classifies nothing as invalid; every entry is
passed through, rewritten to the taxonomy's canonical casing when it
matches case-insensitively, so the output has the input's length. -/
theorem C10_validate_skills_passthrough (skills : List String) :
    (validate_skills skills).invalid_skills = [] ∧
    (validate_skills skills).valid_skills = skills.map canonicalize ∧
    (validate_skills skills).valid_skills.length = skills.length := by
  refine ⟨rfl, ?_, ?_⟩
  · unfold validate_skills
    simp only []
    rw [show skills.map perSkillValid = skills.map (fun s => [canonicalize s]) from
      List.map_congr_left (fun s _ => perSkillValid_eq s)]
    exact join_singletons canonicalize skills
  · unfold validate_skills
    simp only []
    rw [show skills.map perSkillValid = skills.map (fun s => [canonicalize s]) from
      List.map_congr_left (fun s _ => perSkillValid_eq s)]
    rw [join_singletons canonicalize skills]
    exact List.length_map skills canonicalize

end TechCareer
